import Mathlib

/-!
Verification of the `utils-nodejs` helper library (`src/index.js`).

The JavaScript code is shallowly embedded: JS values are the inductive
`JSVal` (numbers are exact integers plus the `NaN` and `±Infinity`
markers — the helpers under scrutiny never manipulate non-integral finite
numbers), strings that are split/parsed character by character are
`List Char`, and code paths that would throw in strict mode return
`none`.
-/

namespace UtilsNode

/-- A JavaScript number: `NaN`, `Infinity`, `-Infinity`, or an (exact)
integer.  The helpers verified here never produce non-integral finite
numbers, but the non-finite values matter: `lodash.isNumber` accepts them
and `lodash.isNaN` rejects only `NaN`, so `Infinity` flows through the
status selection of `createServiceCallback`. -/
inductive JSNum where
  | nan
  | inf
  | negInf
  | int (n : Int)
deriving DecidableEq, Repr

/-- A JavaScript value.  `fn` stands for a bare function value (no own
enumerable properties), which matters for `isEmpty` and JSON serialization. -/
inductive JSVal where
  | null
  | undefined
  | bool (b : Bool)
  | num (n : JSNum)
  | str (s : String)
  | arr (elems : List JSVal)
  | obj (fields : List (String × JSVal))
  | fn
deriving Repr

/-- JS truthiness: `null`, `undefined`, `false`, `0`, `NaN` and `""` are
falsy; every object (arrays, plain objects, functions) is truthy. -/
def truthy : JSVal → Bool
  | .null => false
  | .undefined => false
  | .bool b => b
  | .num .nan => false
  | .num .inf => true
  | .num .negInf => true
  | .num (.int n) => n != 0
  | .str s => !s.isEmpty
  | .arr _ => true
  | .obj _ => true
  | .fn => true

/-- Loose equality against `undefined` (`x == undefined`): true exactly for
`undefined` and `null`; no other value is loosely equal to `undefined`. -/
def isNullish : JSVal → Bool
  | .null => true
  | .undefined => true
  | _ => false

/-- Property read `v[k]`.  On a plain object, the first binding of the key
(or `undefined` when absent); on every other value, `undefined`.  (The code
under verification only reads `message` / `code` / `httpCode`, which are
`undefined` on all primitives and arrays; reads on `null` / `undefined`
would throw but are always guarded by a truthiness test in the source.) -/
def getField (v : JSVal) (k : String) : JSVal :=
  match v with
  | .obj fs => (fs.lookup k).getD .undefined
  | _ => .undefined

/-- Property write on a field list: overwrite the binding in place when the
key is present (JS object keys are unique), else append it at the end (JS
insertion-order semantics). -/
def setFieldList : List (String × JSVal) → String → JSVal → List (String × JSVal)
  | [], k, v => [(k, v)]
  | p :: ps, k, v => if p.1 == k then (k, v) :: ps else p :: setFieldList ps k v

/-- Property write `v[k] = x`.  Succeeds only on plain objects; in strict
mode ("use strict" heads `src/index.js`) assignment to a primitive throws,
modelled as `none`.  (Assignment to an array object would succeed in JS but
an array with extra named properties is not representable here; no claim
exercises that path.) -/
def setField (v : JSVal) (k : String) (x : JSVal) : Option JSVal :=
  match v with
  | .obj fs => some (.obj (setFieldList fs k x))
  | _ => none

mutual
/-- `JSON.parse(JSON.stringify(v))` in value position: `none` when the value
is dropped by serialization (`undefined`, functions); `NaN` serializes as
`null`; arrays map dropped elements to `null`; objects drop such fields. -/
def jsonVal : JSVal → Option JSVal
  | .null => some .null
  | .undefined => none
  | .bool b => some (.bool b)
  | .num .nan => some .null
  | .num .inf => some .null
  | .num .negInf => some .null
  | .num (.int n) => some (.num (.int n))
  | .str s => some (.str s)
  | .fn => none
  | .arr xs => some (.arr (jsonValList xs))
  | .obj fs => some (.obj (jsonValFields fs))

/-- Array elements under a JSON round-trip: non-serializable entries become
`null`. -/
def jsonValList : List JSVal → List JSVal
  | [] => []
  | x :: xs =>
    (match jsonVal x with
     | none => .null
     | some y => y) :: jsonValList xs

/-- Object fields under a JSON round-trip: non-serializable entries are
dropped. -/
def jsonValFields : List (String × JSVal) → List (String × JSVal)
  | [] => []
  | (k, x) :: fs =>
    match jsonVal x with
    | none => jsonValFields fs
    | some y => (k, y) :: jsonValFields fs
end

mutual
/-- `String(v)`: the JS string coercion.  Arrays join their elements with
commas, rendering `null` / `undefined` entries as the empty string; plain
objects render as `"[object Object]"`. -/
def jsToString : JSVal → String
  | .null => "null"
  | .undefined => "undefined"
  | .bool true => "true"
  | .bool false => "false"
  | .num .nan => "NaN"
  | .num .inf => "Infinity"
  | .num .negInf => "-Infinity"
  | .num (.int n) => toString n
  | .str s => s
  | .fn => "function () \x7b \x7d"
  | .arr xs => String.intercalate "," (jsToStringList xs)
  | .obj _ => "[object Object]"

/-- Element-wise string coercion used by `Array.prototype.join`. -/
def jsToStringList : List JSVal → List String
  | [] => []
  | x :: xs =>
    (match x with
     | .null => ""
     | .undefined => ""
     | y => jsToString y) :: jsToStringList xs
end

/-- Decimal digit test. -/
def isDigitCh (c : Char) : Bool := '0' ≤ c && c ≤ '9'

/-- Leading-whitespace characters skipped by `parseInt`. -/
def isWsCh (c : Char) : Bool := c == ' ' || c == '\t' || c == '\n' || c == '\r'

/-- Value of a run of decimal digits. -/
def decDigitsToNat (ds : List Char) : Nat :=
  ds.foldl (fun acc c => acc * 10 + (c.toNat - '0'.toNat)) 0

/-- `parseInt(s, 10)` on the decimal fragment of the grammar: skip leading
whitespace, an optional sign, then the longest run of decimal digits;
`none` models `NaN` (no digits).  (The `0x` hexadecimal prefix that the
radix-free `parseInt` also accepts is outside every claim's domain and not
modelled.) -/
def jsParseIntStr (s : String) : Option Int :=
  let cs := s.toList.dropWhile isWsCh
  match cs with
  | '-' :: rest =>
    let ds := rest.takeWhile isDigitCh
    if ds.isEmpty then none else some (-(decDigitsToNat ds : Int))
  | '+' :: rest =>
    let ds := rest.takeWhile isDigitCh
    if ds.isEmpty then none else some (decDigitsToNat ds : Int)
  | rest =>
    let ds := rest.takeWhile isDigitCh
    if ds.isEmpty then none else some (decDigitsToNat ds : Int)

/-- `parseInt(v)` on an arbitrary value: coerce to string first. -/
def jsParseIntVal (v : JSVal) : Option Int :=
  jsParseIntStr (jsToString v)

/-- `parseInt(v)` as a JS number (`NaN` on failure). -/
def jsParseIntNum (v : JSVal) : JSNum :=
  match jsParseIntVal v with
  | none => .nan
  | some i => .int i

/-! ### String splitting (`String.prototype.split` with a one-character
separator), over `List Char` -/

/-- `s.split(sep)` for a single-character separator: always returns at least
one group; `n` separators yield `n + 1` groups (empty groups included). -/
def splitOnChar (sep : Char) : List Char → List (List Char)
  | [] => [[]]
  | c :: cs =>
    match splitOnChar sep cs with
    | [] => [[]]
    | g :: gs => if c = sep then [] :: g :: gs else (c :: g) :: gs

/-! ### Hexadecimal digits and `parseInt(s, 16)` -/

/-- Hexadecimal digit test (both cases). -/
def isHexCh (c : Char) : Bool :=
  ('0' ≤ c && c ≤ '9') || ('a' ≤ c && c ≤ 'f') || ('A' ≤ c && c ≤ 'F')

/-- Numeric value of a hexadecimal digit character (0 on non-digits). -/
def hexChVal (c : Char) : Nat :=
  if '0' ≤ c && c ≤ '9' then c.toNat - '0'.toNat
  else if 'a' ≤ c && c ≤ 'f' then c.toNat - 'a'.toNat + 10
  else if 'A' ≤ c && c ≤ 'F' then c.toNat - 'A'.toNat + 10
  else 0

/-- Value of a run of hexadecimal digits. -/
def hexDigitsToNat (ds : List Char) : Nat :=
  ds.foldl (fun acc c => acc * 16 + hexChVal c) 0

/-- `parseInt(s, 16)`: the longest leading run of hexadecimal digits, `none`
(`NaN`) when there is none.  (Leading whitespace / sign / `0x` handling is
irrelevant on the canonical UUID groups all claims quantify over.) -/
def jsParseHex (cs : List Char) : Option Nat :=
  let ds := cs.takeWhile isHexCh
  if ds.isEmpty then none else some (hexDigitsToNat ds)

/-- Lower-case hexadecimal digit character for a value `< 16`. -/
def hexCh (n : Nat) : Char :=
  if n < 10 then Char.ofNat ('0'.toNat + n) else Char.ofNat ('a'.toNat + n - 10)

/-- Fixed-width lower-case hexadecimal rendering (most significant digit
first) of `n < 16 ^ w`. -/
def toHexFix : (w : Nat) → Nat → List Char
  | 0, _ => []
  | w + 1, n => hexCh (n / 16 ^ w) :: toHexFix w (n % 16 ^ w)

/-! ### UUID timestamp extraction (`src/index.js` lines 239-252) -/

/-- `getTimeIntFromUUID(uuid_str)`: split on `-`, join
`[arr[2].substring(1), arr[1], arr[0]]` and parse the result in base 16.
`none` models the two JS failure modes on malformed input: fewer than three
groups (reading `.substring` of `undefined` throws) and a parse yielding
`NaN`. -/
def getTimeIntFromUUID (uuid_str : List Char) : Option Nat :=
  let uuid_arr := splitOnChar '-' uuid_str
  match uuid_arr.get? 0, uuid_arr.get? 1, uuid_arr.get? 2 with
  | some g0, some g1, some g2 => jsParseHex ((g2.drop 1 ++ g1) ++ g0)
  | _, _, _ => none

/-- The UUID-epoch (1582-10-15) to Unix-epoch offset, in 100 ns ticks. -/
def uuidEpochOffset : Int := 122192928000000000

/-- `getDateFromUUID(uuid_str)`: subtract the epoch offset from the
extracted tick count and floor-divide by 10000; the result is the
constructed date's millisecond count since 1970-01-01 (a JS `Date` is
exactly its millisecond count). -/
def getDateFromUUID (uuid_str : List Char) : Option Int :=
  (getTimeIntFromUUID uuid_str).map
    (fun timeInt : Nat => Int.fdiv ((timeInt : Int) - uuidEpochOffset) 10000)

/-- A canonical version-1 UUID string built from a 60-bit timestamp
`t < 16 ^ 15` (100 ns ticks since the UUID epoch): `time_low` is the low 32
bits, `time_mid` the next 16, and `time_hi_and_version` the top 12 bits
behind the version nibble `1`; `g3` and `g4` stand for the clock-sequence
and node groups. -/
def mkUUIDv1 (t : Nat) (g3 g4 : List Char) : List Char :=
  toHexFix 8 (t % 16 ^ 8) ++ '-' ::
    (toHexFix 4 (t / 16 ^ 8 % 16 ^ 4) ++ '-' ::
      (toHexFix 4 (16 ^ 3 + t / 16 ^ 12) ++ '-' :: (g3 ++ '-' :: g4)))

/-! ### `APILogicError` and `logicError` (`src/index.js` lines 8-27, 44-46) -/

/-- The `Primitives` type of the source (`string | number | boolean`),
used for an error's context parameters. -/
inductive JSPrim where
  | pstr (s : String)
  | pnum (n : Int)
  | pbool (b : Bool)
deriving DecidableEq, Repr

/-- Embed a primitive into the value universe. -/
def JSPrim.toVal : JSPrim → JSVal
  | .pstr s => .str s
  | .pnum n => .num (.int n)
  | .pbool b => .bool b

/-- The `APILogicError` class: title, message, HTTP status code,
application error code and variadic primitive context parameters.  (The
inherited `Error` state — `stack` — is not observable through `toJSON` and
not modelled.) -/
structure APILogicError where
  title : String
  message : String
  httpCode : Int
  logicErrCode : Int
  pars : List JSPrim
deriving Repr

/-- `APILogicError.prototype.toJSON`: the fixed five-field serialization
shape, with `logicErrCode` exposed under the key `code`. -/
def APILogicError.toJSON (e : APILogicError) : JSVal :=
  .obj [("httpCode", .num (.int e.httpCode)),
        ("code", .num (.int e.logicErrCode)),
        ("title", .str e.title),
        ("message", .str e.message),
        ("pars", .arr (e.pars.map JSPrim.toVal))]

/-- `Utils.logicError`: construct an `APILogicError`. -/
def logicError (title : String) (msg : String) (httpError : Int)
    (errorCode : Int) (pars : List JSPrim) : APILogicError :=
  ⟨title, msg, httpError, errorCode, pars⟩

/-! ### `createServiceCallback` (`src/index.js` lines 47-73) -/

/-- The status selection of the callback: `err.httpCode` whenever it is a
number other than `NaN` (`lodash.isNumber(code) && !lodash.isNaN(code)`
passes every number including the infinities and rejects only `NaN`),
else 500.  The result is a JS number: a non-finite `httpCode` is set as
the status unchanged. -/
def errHttpStatus (err : JSVal) : JSNum :=
  match getField err "httpCode" with
  | .num .nan => .int 500
  | .num n => n
  | _ => .int 500

/-- The callback returned by `createServiceCallback(resp)`, applied to
`(err, data)`.  The result is the pair (final `resp.statusCode`, body
passed to `resp.send`); `none` models a throw (JSON round-trip of a
non-serializable error, or a strict-mode property write on a primitive).
Mirrors the source line by line: build `resData` (the JSON round-trip of
`data` when truthy, else `{}`), set status 200, and when `err` is truthy,
round-trip it, backfill `message` and `code` when loosely `undefined`,
choose the status from `err.httpCode` (a non-`NaN` number, else 500) and
attach the error object under the key `err`. -/
def serviceCallback (err data : JSVal) : Option (JSNum × JSVal) := do
  let resData ← if truthy data then jsonVal data else some (.obj [])
  if truthy err then
    let errObj0 ← jsonVal err
    let errObj1 ←
      if isNullish (getField errObj0 "message") then
        setField errObj0 "message" (getField err "message")
      else some errObj0
    let errObj2 ←
      if isNullish (getField errObj1 "code") then
        setField errObj1 "code" (.num (jsParseIntNum (getField err "code")))
      else some errObj1
    let body ← setField resData "err" errObj2
    return (errHttpStatus err, body)
  else
    return (.int 200, resData)

/-! ### `isEmpty` (`src/index.js` lines 74-79) -/

/-- `Object.keys(v)`: own enumerable string keys.  Arrays and strings
expose their index keys; a bare function and the other primitives have
none.  (Duplicate keys do not arise in the source's uses.) -/
def jsKeys : JSVal → List String
  | .obj fs => fs.map (fun p => p.1)
  | .arr xs => (List.range xs.length).map (fun i => toString i)
  | .str s => (List.range s.length).map (fun i => toString i)
  | _ => []

/-- `lodash.isNaN`. -/
def jsIsNaN : JSVal → Bool
  | .num .nan => true
  | _ => false

/-- `lodash.isString`. -/
def jsIsString : JSVal → Bool
  | .str _ => true
  | _ => false

/-- `v instanceof Array`. -/
def jsIsArray : JSVal → Bool
  | .arr _ => true
  | _ => false

/-- `v instanceof Object`: true for arrays, plain objects and functions;
false for every primitive. -/
def jsIsObjectInstance : JSVal → Bool
  | .arr _ => true
  | .obj _ => true
  | .fn => true
  | _ => false

/-- String length (`obj.length` on a string). -/
def jsStrLength : JSVal → Nat
  | .str s => s.length
  | _ => 0

/-- Array length (`obj.length` on an array). -/
def jsArrLength : JSVal → Nat
  | .arr xs => xs.length
  | _ => 0

/-- `Utils.isEmpty`, disjunct for disjunct from the source:
`obj == null || lodash.isNaN(obj) || obj === false`, empty string, empty
array, or an `Object` instance with no own keys. -/
def isEmpty (obj : JSVal) : Bool :=
  (isNullish obj || jsIsNaN obj || (match obj with | .bool false => true | _ => false)) ||
  (jsIsString obj && jsStrLength obj == 0) ||
  (jsIsArray obj && jsArrLength obj == 0) ||
  (jsIsObjectInstance obj && (jsKeys obj).length == 0)

/-! ### `routeAsync` and `routeNextableAsync` (`src/index.js` lines
154-190) -/

/-- One invocation of the terminal callback, with both JS arguments:
`callback(null, data)` passes `(null, data)`, `callback(err)` passes
`(err, undefined)`. -/
structure CallbackCall where
  errArg : JSVal
  dataArg : JSVal
deriving Repr

/-- The settled outcome of the wrapped handler's promise: fulfilled with a
value, or rejected with a reason. -/
abbrev HandlerOutcome := Except JSVal JSVal

/-- `promise.then(onFulfilled).catch(onRejected)` where both handlers
return the list of callback invocations they perform (and throw nothing
themselves): fulfillment runs `onFulfilled`, rejection falls through to
`onRejected`. -/
def promiseThenCatch (p : HandlerOutcome) (onFulfilled : JSVal → List CallbackCall)
    (onRejected : JSVal → List CallbackCall) : List CallbackCall :=
  match p with
  | .ok d => onFulfilled d
  | .error e => onRejected e

/-- The callback invocations performed by the handler returned by
`routeAsync` once the wrapped promise settles: `callback(null, data)` on
fulfillment, `callback(err)` on rejection (after logging `Error`
instances, which does not affect the invocations). -/
def routeAsyncCalls (outcome : HandlerOutcome) : List CallbackCall :=
  promiseThenCatch outcome
    (fun data => [⟨.null, data⟩])
    (fun err => [⟨err, .undefined⟩])

/-- The callback invocations performed by the handler returned by
`routeNextableAsync`: on fulfillment, `callback(null, data)` only when
`data != undefined` (loose — `undefined` and `null` both skip); on
rejection, `callback(err)`. -/
def routeNextableAsyncCalls (outcome : HandlerOutcome) : List CallbackCall :=
  promiseThenCatch outcome
    (fun data => if !isNullish data then [⟨.null, data⟩] else [])
    (fun err => [⟨err, .undefined⟩])

/-! ### `pack` (`src/index.js` lines 260-272) -/

/-- The longest input length (`lodash.max` of the lengths); with no input
arrays `lodash.max` returns `undefined` and the loop body never runs,
which coincides with taking the maximum to be 0. -/
def packLen (arrs : List (List JSVal)) : Nat :=
  (arrs.map List.length).foldr max 0

/-- `Utils.pack(...arrs)`: tuple `i` holds `arr[i]` when `i < arr.length`
and `undefined` (the absent marker) otherwise. -/
def pack (arrs : List (List JSVal)) : List (List JSVal) :=
  (List.range (packLen arrs)).map
    (fun i => arrs.map (fun arr => (arr.get? i).getD .undefined))

/-! ### `parseIntNull` (`src/index.js` lines 326-329) -/

/-- `Utils.parseIntNull(v)`: `lodash.parseInt` then
`isNaN(i) ? null : (i || null)` — parse failure and a parsed 0 both give
`null` (modelled as `none`). -/
def parseIntNull (v : JSVal) : Option Int :=
  match jsParseIntVal v with
  | none => none
  | some i => if i = 0 then none else some i

/-! ### `Pair`, `pairFirst`, `pairSecond` (`src/index.js` lines 312-320,
336-349) -/

/-- `pair(s1, s2).str()` for string components and the default separator
`"|"`: on strings `Pair.str` takes its `lodash.isString` branch and joins
the two components unchanged. -/
def pairStr (s1 s2 : List Char) (sep : Char := '|') : List Char :=
  s1 ++ sep :: s2

/-- `Utils.pairFirst(s)` with the default separator and identity
transform: `s.split(sep)[0]` (always present — `split` never returns an
empty array). -/
def pairFirst (s : List Char) (sep : Char := '|') : Option (List Char) :=
  (splitOnChar sep s).get? 0

/-- `Utils.pairSecond(s)` with the default separator and identity
transform: `s.split(sep)[1]` (`undefined`, i.e. `none`, when the
separator does not occur). -/
def pairSecond (s : List Char) (sep : Char := '|') : Option (List Char) :=
  (splitOnChar sep s).get? 1

/-! ### Spec-side predicates for the `isEmpty` claim -/

/-- The emptiness predicate exactly as the specification enumerates it:
null/undefined, `NaN`, `false`, the empty string, the empty array, and an
empty plain object with no own keys — and nothing else.  (Written from the
spec's words, to be compared with `isEmpty` from the source.) -/
def specEmptyC6 : JSVal → Bool
  | .null => true
  | .undefined => true
  | .num .nan => true
  | .bool false => true
  | .str s => s == ""
  | .arr xs => xs.isEmpty
  | .obj fs => fs.isEmpty
  | _ => false

/-- The amended emptiness predicate: as `specEmptyC6`, but any `Object`
instance with no own enumerable keys counts as empty — not only plain
objects; in this universe the additional such value is a bare function. -/
def amendedEmptyC6 : JSVal → Bool
  | .null => true
  | .undefined => true
  | .num .nan => true
  | .bool false => true
  | .str s => s == ""
  | .arr xs => xs.isEmpty
  | .obj fs => fs.isEmpty
  | .fn => true
  | _ => false

end UtilsNode

namespace UtilsNode

/-- C2: whatever outcome the wrapped handler's promise settles to, the
wrapper built by `routeAsync` invokes the terminal callback exactly once —
with `(null, result)` on fulfillment and with `(error)` on rejection. -/
theorem routeAsync_exactly_one_callback (outcome : HandlerOutcome) :
    (routeAsyncCalls outcome).length = 1 ∧
    (∀ d, outcome = .ok d → routeAsyncCalls outcome = [⟨.null, d⟩]) ∧
    (∀ e, outcome = .error e → routeAsyncCalls outcome = [⟨e, .undefined⟩]) := by
  cases outcome <;> simp [routeAsyncCalls, promiseThenCatch]

theorem routeAsync_exactly_one_callback_witness :
    Except.ok (JSVal.num (.int 7)) = (Except.ok (JSVal.num (.int 7)) : HandlerOutcome) ∧
    routeAsyncCalls (Except.ok (JSVal.num (.int 7))) = [⟨.null, .num (.int 7)⟩] :=
  ⟨rfl, (routeAsync_exactly_one_callback (Except.ok (JSVal.num (.int 7)))).2.1 _ rfl⟩

/-- C7: `logicError` serializes through `toJSON` to exactly the shape
`{httpCode, code, title, message, pars}` holding the constructor
arguments; in particular `logicError("T","M",404,10,"x")`. -/
theorem logicError_toJSON_shape (t m : String) (h c : Int) (ps : List JSPrim) :
    (logicError t m h c ps).toJSON =
      .obj [("httpCode", .num (.int h)), ("code", .num (.int c)),
            ("title", .str t), ("message", .str m),
            ("pars", .arr (ps.map JSPrim.toVal))] ∧
    (logicError "T" "M" 404 10 [.pstr "x"]).toJSON =
      .obj [("httpCode", .num (.int 404)), ("code", .num (.int 10)),
            ("title", .str "T"), ("message", .str "M"),
            ("pars", .arr [.str "x"])] :=
  ⟨rfl, rfl⟩

/-- C8: the wrapper built by `routeNextableAsync` invokes the success
callback only when the fulfilled result is not absent (and then with that
result), performs no invocation on an absent (`undefined`) result, and on
rejection always invokes the callback with the error. -/
theorem routeNextable_callback_spec (outcome : HandlerOutcome) :
    (∀ d, outcome = .ok d → routeNextableAsyncCalls outcome ≠ [] →
       d ≠ .undefined ∧ routeNextableAsyncCalls outcome = [⟨.null, d⟩]) ∧
    (outcome = .ok .undefined → routeNextableAsyncCalls outcome = []) ∧
    (∀ e, outcome = .error e → routeNextableAsyncCalls outcome = [⟨e, .undefined⟩]) := by
  cases outcome with
  | ok d => cases d <;> simp [routeNextableAsyncCalls, promiseThenCatch, isNullish]
  | error e => simp [routeNextableAsyncCalls, promiseThenCatch]

theorem routeNextable_callback_spec_witness :
    Except.ok JSVal.undefined = (Except.ok JSVal.undefined : HandlerOutcome) ∧
    routeNextableAsyncCalls (Except.ok JSVal.undefined) = [] :=
  ⟨rfl, (routeNextable_callback_spec (Except.ok JSVal.undefined)).2.1 rfl⟩

/-- C9: `parseIntNull` maps parse failure (`NaN`) and a parsed value of
zero alike to the null sentinel; in particular `parseIntNull("0")` is null
and indistinguishable from an unparseable input. -/
theorem parseIntNull_zero_spec (v : JSVal) :
    (jsParseIntVal v = none → parseIntNull v = none) ∧
    (jsParseIntVal v = some 0 → parseIntNull v = none) ∧
    parseIntNull (.str "0") = none ∧
    parseIntNull (.str "0") = parseIntNull (.str "abc") := by
  refine ⟨fun h => ?_, fun h => ?_, rfl, rfl⟩
  · simp [parseIntNull, h]
  · simp [parseIntNull, h]

theorem parseIntNull_zero_spec_witness :
    jsParseIntVal (.str "0") = some 0 ∧ parseIntNull (.str "0") = none :=
  ⟨rfl, (parseIntNull_zero_spec (.str "0")).2.1 rfl⟩

end UtilsNode

namespace UtilsNode

/-- `packLen` on a cons is the maximum of the head's length and the rest's. -/
theorem packLen_cons (x : List JSVal) (xs : List (List JSVal)) :
    packLen (x :: xs) = max x.length (packLen xs) := rfl

/-- Every input array's length is bounded by `packLen`. -/
theorem length_le_packLen (arrs : List (List JSVal)) :
    ∀ a ∈ arrs, a.length ≤ packLen arrs := by
  induction arrs with
  | nil => simp
  | cons x xs ih =>
    intro a ha
    rcases List.mem_cons.mp ha with h | h
    · subst h; exact Nat.le_max_left _ _
    · exact (ih a h).trans (Nat.le_max_right _ _)

/-- On a nonempty input list, `packLen` is the length of one of the inputs. -/
theorem packLen_attained (arrs : List (List JSVal)) (h : arrs ≠ []) :
    ∃ a ∈ arrs, a.length = packLen arrs := by
  induction arrs with
  | nil => exact absurd rfl h
  | cons x xs ih =>
    by_cases hxs : xs = []
    · subst hxs
      exact ⟨x, List.mem_cons_self x [], by simp [packLen_cons, packLen]⟩
    · obtain ⟨a, ha, he⟩ := ih hxs
      rcases Nat.le_total x.length (packLen xs) with h1 | h1
      · exact ⟨a, List.mem_cons_of_mem x ha, by rw [packLen_cons]; omega⟩
      · exact ⟨x, List.mem_cons_self x xs, by rw [packLen_cons]; omega⟩

/-- C5: `pack` produces one tuple per index up to the longest input's
length (0 when there are no elements), tuple `i` holding element `i` of
each input with positions past a shorter array's end filled with the
absent marker; in particular `pack([1,2,3],["a","b"])`. -/
theorem pack_spec (arrs : List (List JSVal)) :
    (pack arrs).length = packLen arrs ∧
    (∀ a ∈ arrs, a.length ≤ packLen arrs) ∧
    (arrs = [] → packLen arrs = 0) ∧
    (arrs ≠ [] → ∃ a ∈ arrs, a.length = packLen arrs) ∧
    (∀ i, i < packLen arrs →
       (pack arrs).get? i = some (arrs.map (fun arr => (arr.get? i).getD .undefined))) ∧
    pack [[.num (.int 1), .num (.int 2), .num (.int 3)], [.str "a", .str "b"]] =
      [[.num (.int 1), .str "a"], [.num (.int 2), .str "b"],
       [.num (.int 3), .undefined]] := by
  refine ⟨by simp [pack], length_le_packLen arrs,
    fun h => by subst h; rfl, packLen_attained arrs, fun i hi => ?_, rfl⟩
  rw [pack, List.get?_map, List.get?_range hi]
  rfl

theorem pack_spec_witness :
    (2 < packLen [[.num (.int 1), .num (.int 2), .num (.int 3)],
        [.str "a", .str "b"]]) ∧
    (pack [[.num (.int 1), .num (.int 2), .num (.int 3)],
        [.str "a", .str "b"]]).get? 2 =
      some [.num (.int 3), .undefined] :=
  ⟨by decide,
    (pack_spec [[.num (.int 1), .num (.int 2), .num (.int 3)],
        [.str "a", .str "b"]]).2.2.2.2.1 2 (by decide)⟩

/-- C6 counterexample: `isEmpty` is true on a bare function value, which
the claim's enumeration (null/undefined, NaN, false, empty string, empty
array, empty plain object) does not contain, so `isEmpty` does not return
false on every input outside that enumeration. -/
theorem isEmpty_spec_counterexample :
    isEmpty JSVal.fn = true ∧ specEmptyC6 JSVal.fn = false :=
  ⟨rfl, rfl⟩

/-- C6 (amended): `isEmpty` returns true exactly for null/undefined,
`NaN`, `false`, the empty string, the empty array, and any `Object`
instance with no own enumerable keys — plain objects and bare functions
alike — and false for every other input. -/
theorem isEmpty_amended_spec (v : JSVal) : isEmpty v = amendedEmptyC6 v := by
  cases v with
  | null => rfl
  | undefined => rfl
  | fn => rfl
  | bool b => cases b <;> rfl
  | num n => cases n <;> rfl
  | str s =>
    rcases s with ⟨cs⟩
    cases cs <;>
      simp [isEmpty, amendedEmptyC6, jsIsString, jsStrLength, isNullish,
        jsIsNaN, jsIsArray, jsIsObjectInstance, String.length, String.ext_iff]
  | arr xs =>
    cases xs <;>
      simp [isEmpty, amendedEmptyC6, jsIsString, jsStrLength, isNullish,
        jsIsNaN, jsIsArray, jsIsObjectInstance, jsArrLength, jsKeys]
  | obj fs =>
    cases fs <;>
      simp [isEmpty, amendedEmptyC6, jsIsString, jsStrLength, isNullish,
        jsIsNaN, jsIsArray, jsIsObjectInstance, jsArrLength, jsKeys]

end UtilsNode

namespace UtilsNode

/-- `split` never returns an empty group list. -/
theorem splitOnChar_ne_nil (sep : Char) : ∀ l : List Char, splitOnChar sep l ≠ []
  | [] => by simp [splitOnChar]
  | c :: cs => by
    simp only [splitOnChar]
    rcases h : splitOnChar sep cs with _ | ⟨g, gs⟩
    · simp
    · by_cases hc : c = sep <;> simp [hc]

/-- Splitting a separator-free string yields the single group. -/
theorem splitOnChar_no_sep (sep : Char) (l : List Char) (h : sep ∉ l) :
    splitOnChar sep l = [l] := by
  induction l with
  | nil => rfl
  | cons c cs ih =>
    have hc : ¬c = sep := fun e => h (by simp [e])
    have hcs : sep ∉ cs := fun m => h (List.mem_cons_of_mem _ m)
    simp only [splitOnChar, ih hcs]
    simp [hc]

/-- Splitting peels off a leading separator-free group. -/
theorem splitOnChar_append (sep : Char) (l1 l2 : List Char) (h : sep ∉ l1) :
    splitOnChar sep (l1 ++ sep :: l2) = l1 :: splitOnChar sep l2 := by
  induction l1 with
  | nil =>
    simp only [List.nil_append, splitOnChar]
    rcases hs : splitOnChar sep l2 with _ | ⟨g, gs⟩
    · exact absurd hs (splitOnChar_ne_nil sep l2)
    · simp [hs]
  | cons c cs ih =>
    have hc : ¬c = sep := fun e => h (by simp [e])
    have hcs : sep ∉ cs := fun m => h (List.mem_cons_of_mem _ m)
    simp only [List.cons_append, splitOnChar, List.append_eq]
    rw [ih hcs]
    simp [hc]

/-- `hexChVal` inverts `hexCh` on digit values. -/
theorem hexChVal_hexCh (d : Nat) (h : d < 16) : hexChVal (hexCh d) = d := by
  interval_cases d <;> decide

/-- `hexCh` produces hexadecimal digit characters. -/
theorem isHexCh_hexCh (d : Nat) (h : d < 16) : isHexCh (hexCh d) = true := by
  interval_cases d <;> decide

/-- Every character of a fixed-width hexadecimal rendering is a hex digit. -/
theorem toHexFix_all_hex (w : Nat) :
    ∀ n, n < 16 ^ w → ∀ c ∈ toHexFix w n, isHexCh c = true := by
  induction w with
  | zero => simp [toHexFix]
  | succ w ih =>
    intro n hn c hc
    rcases List.mem_cons.mp hc with rfl | hc
    · refine isHexCh_hexCh _ (Nat.div_lt_of_lt_mul ?_)
      rw [pow_succ] at hn
      exact hn
    · exact ih (n % 16 ^ w) (Nat.mod_lt _ (by positivity)) c hc

/-- Hex renderings contain no hyphen. -/
theorem dash_not_mem_toHexFix (w n : Nat) (h : n < 16 ^ w) :
    '-' ∉ toHexFix w n := fun hm =>
  absurd (toHexFix_all_hex w n h '-' hm) (by decide)

/-- Folding the base-16 accumulator over a fixed-width rendering recovers
the rendered value on top of the incoming accumulator. -/
theorem foldl_hex_toHexFix (w : Nat) :
    ∀ n a : Nat, n < 16 ^ w →
      (toHexFix w n).foldl (fun acc c => acc * 16 + hexChVal c) a = a * 16 ^ w + n := by
  induction w with
  | zero =>
    intro n a hn
    simp [toHexFix]
    omega
  | succ w ih =>
    intro n a hn
    simp only [toHexFix, List.foldl_cons]
    rw [hexChVal_hexCh _ (Nat.div_lt_of_lt_mul (by rw [pow_succ] at hn; exact hn)),
      ih _ _ (Nat.mod_lt _ (by positivity))]
    conv_rhs => rw [← Nat.div_add_mod n (16 ^ w)]
    ring

/-- `parseInt(s, 16)` on a nonempty all-hex string is the digit fold. -/
theorem jsParseHex_all_hex (cs : List Char) (hhex : ∀ c ∈ cs, isHexCh c = true)
    (hne : cs ≠ []) : jsParseHex cs = some (hexDigitsToNat cs) := by
  unfold jsParseHex
  rw [List.takeWhile_eq_self_iff.mpr hhex]
  simp [hne]

end UtilsNode

namespace UtilsNode

/-- On a canonical five-group UUID string, `getTimeIntFromUUID` parses, in
base 16, the concatenation of the version-stripped time-high group, the
time-mid group and the time-low group (shared helper). -/
theorem getTimeIntFromUUID_groups (g0 g1 g2 g3 g4 : List Char)
    (h0 : '-' ∉ g0) (h1 : '-' ∉ g1) (h2 : '-' ∉ g2)
    (h3 : '-' ∉ g3) (h4 : '-' ∉ g4)
    (hhex : ∀ c ∈ (g2.drop 1 ++ g1) ++ g0, isHexCh c = true)
    (hne : (g2.drop 1 ++ g1) ++ g0 ≠ []) :
    getTimeIntFromUUID
        (g0 ++ '-' :: (g1 ++ '-' :: (g2 ++ '-' :: (g3 ++ '-' :: g4)))) =
      some (hexDigitsToNat ((g2.drop 1 ++ g1) ++ g0)) := by
  have hsplit :
      splitOnChar '-' (g0 ++ '-' :: (g1 ++ '-' :: (g2 ++ '-' :: (g3 ++ '-' :: g4)))) =
        [g0, g1, g2, g3, g4] := by
    rw [splitOnChar_append _ _ _ h0, splitOnChar_append _ _ _ h1,
      splitOnChar_append _ _ _ h2, splitOnChar_append _ _ _ h3,
      splitOnChar_no_sep _ _ h4]
  simp only [getTimeIntFromUUID, hsplit]
  exact jsParseHex_all_hex _ hhex hne

/-- C4: on a canonical five-group version-1 UUID string,
`getTimeIntFromUUID` returns the integer obtained by concatenating the
time-high group with its leading version nibble stripped, then the
time-mid group, then the time-low group, and parsing the concatenation as
a base-16 integer. -/
theorem getTimeIntFromUUID_canonical (g0 g1 g2 g3 g4 : List Char)
    (h0 : '-' ∉ g0) (h1 : '-' ∉ g1) (h2 : '-' ∉ g2)
    (h3 : '-' ∉ g3) (h4 : '-' ∉ g4)
    (hhex : ∀ c ∈ (g2.drop 1 ++ g1) ++ g0, isHexCh c = true)
    (hne : (g2.drop 1 ++ g1) ++ g0 ≠ []) :
    getTimeIntFromUUID
        (g0 ++ '-' :: (g1 ++ '-' :: (g2 ++ '-' :: (g3 ++ '-' :: g4)))) =
      some (hexDigitsToNat ((g2.drop 1 ++ g1) ++ g0)) :=
  getTimeIntFromUUID_groups g0 g1 g2 g3 g4 h0 h1 h2 h3 h4 hhex hne

theorem getTimeIntFromUUID_canonical_witness :
    ('-' ∉ "1ec9414c".toList) ∧
    getTimeIntFromUUID
        ("1ec9414c".toList ++ '-' :: ("232a".toList ++ '-' ::
          ("1b21".toList ++ '-' :: ("9669".toList ++ '-' :: "0242ac120002".toList)))) =
      some (hexDigitsToNat (("1b21".toList.drop 1 ++ "232a".toList) ++ "1ec9414c".toList)) :=
  ⟨by decide,
    getTimeIntFromUUID_canonical "1ec9414c".toList "232a".toList "1b21".toList
      "9669".toList "0242ac120002".toList (by decide) (by decide) (by decide)
      (by decide) (by decide) (by decide) (by decide)⟩

end UtilsNode

namespace UtilsNode

/-- Extraction inverts construction: on a canonical version-1 UUID built
from a 60-bit tick count, `getTimeIntFromUUID` returns that tick count. -/
theorem getTimeIntFromUUID_mkUUIDv1 (t : Nat) (g3 g4 : List Char)
    (ht : t < 16 ^ 15) (h3 : '-' ∉ g3) (h4 : '-' ∉ g4) :
    getTimeIntFromUUID (mkUUIDv1 t g3 g4) = some t := by
  have hdiv12 : t / 16 ^ 12 < 16 ^ 3 := by
    refine Nat.div_lt_of_lt_mul ?_
    have he : (16 : Nat) ^ 12 * 16 ^ 3 = 16 ^ 15 := by norm_num
    rw [he]; exact ht
  have hlow : t % 16 ^ 8 < 16 ^ 8 := Nat.mod_lt _ (by norm_num)
  have hmid : t / 16 ^ 8 % 16 ^ 4 < 16 ^ 4 := Nat.mod_lt _ (by norm_num)
  have hhiv : (16 ^ 3 + t / 16 ^ 12) < 16 ^ 4 := by
    norm_num at hdiv12 ⊢; omega
  have hmod3 : (16 ^ 3 + t / 16 ^ 12) % 16 ^ 3 = t / 16 ^ 12 := by
    norm_num at hdiv12 ⊢; omega
  have hg2 : (toHexFix 4 (16 ^ 3 + t / 16 ^ 12)).drop 1 = toHexFix 3 (t / 16 ^ 12) := by
    show (hexCh ((16 ^ 3 + t / 16 ^ 12) / 16 ^ 3) ::
      toHexFix 3 ((16 ^ 3 + t / 16 ^ 12) % 16 ^ 3)).drop 1 = toHexFix 3 (t / 16 ^ 12)
    rw [List.drop_one, List.tail_cons, hmod3]
  have hhex : ∀ c ∈ ((toHexFix 4 (16 ^ 3 + t / 16 ^ 12)).drop 1 ++
      toHexFix 4 (t / 16 ^ 8 % 16 ^ 4)) ++ toHexFix 8 (t % 16 ^ 8), isHexCh c = true := by
    rw [hg2]
    intro c hc
    rcases List.mem_append.mp hc with hc | hc
    · rcases List.mem_append.mp hc with hc | hc
      · exact toHexFix_all_hex 3 _ hdiv12 c hc
      · exact toHexFix_all_hex 4 _ hmid c hc
    · exact toHexFix_all_hex 8 _ hlow c hc
  have hne : ((toHexFix 4 (16 ^ 3 + t / 16 ^ 12)).drop 1 ++
      toHexFix 4 (t / 16 ^ 8 % 16 ^ 4)) ++ toHexFix 8 (t % 16 ^ 8) ≠ [] := by
    rw [hg2]
    show (hexCh _ :: toHexFix 2 _ ++ _) ++ _ ≠ []
    simp
  have happ := getTimeIntFromUUID_groups
    (toHexFix 8 (t % 16 ^ 8)) (toHexFix 4 (t / 16 ^ 8 % 16 ^ 4))
    (toHexFix 4 (16 ^ 3 + t / 16 ^ 12)) g3 g4
    (dash_not_mem_toHexFix _ _ hlow) (dash_not_mem_toHexFix _ _ hmid)
    (dash_not_mem_toHexFix _ _ hhiv) h3 h4 hhex hne
  show getTimeIntFromUUID (toHexFix 8 (t % 16 ^ 8) ++ '-' ::
      (toHexFix 4 (t / 16 ^ 8 % 16 ^ 4) ++ '-' ::
        (toHexFix 4 (16 ^ 3 + t / 16 ^ 12) ++ '-' :: (g3 ++ '-' :: g4)))) = some t
  rw [happ, hg2]
  congr 1
  unfold hexDigitsToNat
  rw [List.foldl_append, List.foldl_append,
    foldl_hex_toHexFix 3 (t / 16 ^ 12) 0 hdiv12,
    foldl_hex_toHexFix 4 (t / 16 ^ 8 % 16 ^ 4) _ hmid,
    foldl_hex_toHexFix 8 (t % 16 ^ 8) _ hlow]
  norm_num
  omega

theorem getTimeIntFromUUID_mkUUIDv1_witness :
    (122192928010000000 < 16 ^ 15) ∧
    getTimeIntFromUUID (mkUUIDv1 122192928010000000 ['a', 'b'] ['c']) =
      some 122192928010000000 :=
  ⟨by norm_num,
    getTimeIntFromUUID_mkUUIDv1 122192928010000000 ['a', 'b'] ['c']
      (by norm_num) (by decide) (by decide)⟩

/-- C3: a version-1 UUID carrying tick count
`uuidEpochOffset * 100ns + (10000 * m + r)` (that is, Unix time `m`
milliseconds plus a sub-millisecond remainder `r`) decodes to the date
whose millisecond count is exactly `m`. -/
theorem getDateFromUUID_recovers_ms (m r : Nat) (g3 g4 : List Char)
    (hr : r < 10000)
    (ht : 122192928000000000 + (10000 * m + r) < 16 ^ 15)
    (h3 : '-' ∉ g3) (h4 : '-' ∉ g4) :
    getDateFromUUID (mkUUIDv1 (122192928000000000 + (10000 * m + r)) g3 g4) =
      some (m : Int) := by
  unfold getDateFromUUID
  rw [getTimeIntFromUUID_mkUUIDv1 _ g3 g4 ht h3 h4]
  simp only [Option.map_some']
  congr 1
  have hsub : ((122192928000000000 + (10000 * m + r) : Nat) : Int) - uuidEpochOffset
      = ((10000 * m + r : Nat) : Int) := by
    unfold uuidEpochOffset; push_cast; ring
  rw [hsub, show (10000 : Int) = ((10000 : Nat) : Int) from rfl, ← Int.ofNat_fdiv]
  have hq : (10000 * m + r) / 10000 = m := by omega
  rw [hq]

theorem getDateFromUUID_recovers_ms_witness :
    (123 < 10000 ∧ 122192928000000000 + (10000 * 1000 + 123) < 16 ^ 15) ∧
    getDateFromUUID (mkUUIDv1 (122192928000000000 + (10000 * 1000 + 123))
        ['a', 'b'] ['c']) = some (1000 : Int) :=
  ⟨⟨by norm_num, by norm_num⟩,
    getDateFromUUID_recovers_ms 1000 123 ['a', 'b'] ['c']
      (by norm_num) (by norm_num) (by decide) (by decide)⟩

/-- C10: rendering a pair of separator-free strings and re-splitting
recovers both components. -/
theorem pair_str_roundtrip (s1 s2 : List Char) (h1 : '|' ∉ s1) (h2 : '|' ∉ s2) :
    pairFirst (pairStr s1 s2) = some s1 ∧ pairSecond (pairStr s1 s2) = some s2 := by
  have hsplit : splitOnChar '|' (s1 ++ '|' :: s2) = [s1, s2] := by
    rw [splitOnChar_append _ _ _ h1, splitOnChar_no_sep _ _ h2]
  constructor <;> simp [pairFirst, pairSecond, pairStr, hsplit]

theorem pair_str_roundtrip_witness :
    ('|' ∉ "ab".toList ∧ '|' ∉ "cd".toList) ∧
    pairFirst (pairStr "ab".toList "cd".toList) = some "ab".toList ∧
    pairSecond (pairStr "ab".toList "cd".toList) = some "cd".toList :=
  ⟨⟨by decide, by decide⟩,
    pair_str_roundtrip "ab".toList "cd".toList (by decide) (by decide)⟩

end UtilsNode

namespace UtilsNode

/-- Looking up the key just written finds the written value. -/
theorem lookup_setFieldList_self (fs : List (String × JSVal)) (k : String) (v : JSVal) :
    (setFieldList fs k v).lookup k = some v := by
  induction fs with
  | nil => simp [setFieldList, List.lookup]
  | cons p ps ih =>
    by_cases h : p.1 = k
    · simp [setFieldList, h, List.lookup]
    · have hb : (p.1 == k) = false := by simp [h]
      have hb2 : (k == p.1) = false := by simp; exact fun e => h e.symm
      simp [setFieldList, hb, List.lookup, hb2, ih]

/-- Writing one key leaves every other key's lookup unchanged. -/
theorem lookup_setFieldList_ne (fs : List (String × JSVal)) (k k2 : String)
    (v : JSVal) (h : k2 ≠ k) :
    (setFieldList fs k v).lookup k2 = fs.lookup k2 := by
  induction fs with
  | nil =>
    have hb : (k2 == k) = false := by simp [h]
    simp [setFieldList, List.lookup, hb]
  | cons p ps ih =>
    by_cases hp : p.1 = k
    · have hb : (k2 == p.1) = false := by simp [hp]; exact fun e => h e
      have hbk : (k2 == k) = false := by simp [h]
      simp [setFieldList, hp, List.lookup, hb, hbk]
    · have hb : (p.1 == k) = false := by simp [hp]
      simp [setFieldList, hb, List.lookup, ih]

/-- `getField` of the key just written. -/
theorem getField_set_self (fs : List (String × JSVal)) (k : String) (v : JSVal) :
    getField (.obj (setFieldList fs k v)) k = v := by
  simp [getField, lookup_setFieldList_self]

/-- `getField` of an untouched key. -/
theorem getField_set_ne (fs : List (String × JSVal)) (k k2 : String)
    (v : JSVal) (h : k2 ≠ k) :
    getField (.obj (setFieldList fs k v)) k2 = getField (.obj fs) k2 := by
  simp [getField, lookup_setFieldList_ne _ _ _ _ h]

/-- `errHttpStatus` passes any non-`NaN` numeric `httpCode` through as the
status — the infinities included, since `lodash.isNumber` accepts them and
`lodash.isNaN` rejects only `NaN`. -/
theorem errHttpStatus_num (err : JSVal) (n : JSNum)
    (h : getField err "httpCode" = .num n) (hn : n ≠ .nan) :
    errHttpStatus err = n := by
  unfold errHttpStatus
  rw [h]
  cases n with
  | nan => exact absurd rfl hn
  | inf => rfl
  | negInf => rfl
  | int m => rfl

/-- `errHttpStatus` falls back to 500 when `httpCode` is `NaN` or not a
number at all. -/
theorem errHttpStatus_500 (err : JSVal)
    (h : ∀ n : JSNum, getField err "httpCode" = .num n → n = .nan) :
    errHttpStatus err = .int 500 := by
  unfold errHttpStatus
  rcases hv : getField err "httpCode" with _ | _ | b | n | s | xs | gs | _ <;> try rfl
  rw [h n hv]

/-- C1 counterexample: with `{httpCode: Infinity}` — a number that is not
finite, so the claim's "httpCode when finite, else 500" demands status
500 — the source's guard `lodash.isNumber(code) && !lodash.isNaN(code)`
passes `Infinity` and the callback sets the response status to `Infinity`,
not 500. -/
theorem createServiceCallback_infinity_cex :
    serviceCallback (.obj [("httpCode", .num .inf)]) .undefined =
      some (.inf, .obj [("err", .obj [("httpCode", .null),
        ("message", .undefined), ("code", .num .nan)])]) ∧
    JSNum.inf ≠ JSNum.int 500 :=
  ⟨rfl, by decide⟩

/-- C1 (amended): invoked with a truthy error object (and falsy `data`, as
in the error path of the route wrappers), the callback sends exactly one
response: the envelope `{err: errObj}` where `errObj` is the JSON
round-trip of the error with `message` backfilled from the original error
when absent after round-tripping and `code` backfilled with
`parseInt(err.code)` when absent, and the status is the error's `httpCode`
whenever that is a number other than `NaN` — a non-finite `httpCode` such
as `Infinity` is passed through as the status — and 500 when it is `NaN`
or not a number; in particular `{httpCode: 404, message: "nf"}` yields
status 404 and an envelope whose `err.message` is `"nf"`. -/
theorem createServiceCallback_error_spec (fs : List (String × JSVal)) (data : JSVal)
    (hdata : truthy data = false) :
    (∃ errObj : JSVal,
      serviceCallback (.obj fs) data =
        some (errHttpStatus (.obj fs), .obj [("err", errObj)]) ∧
      (isNullish (getField (.obj (jsonValFields fs)) "message") = false →
         getField errObj "message" = getField (.obj (jsonValFields fs)) "message") ∧
      (isNullish (getField (.obj (jsonValFields fs)) "message") = true →
         getField errObj "message" = getField (.obj fs) "message") ∧
      (isNullish (getField (.obj (jsonValFields fs)) "code") = false →
         getField errObj "code" = getField (.obj (jsonValFields fs)) "code") ∧
      (isNullish (getField (.obj (jsonValFields fs)) "code") = true →
         getField errObj "code" = .num (jsParseIntNum (getField (.obj fs) "code")))) ∧
    (∀ n : JSNum, getField (.obj fs) "httpCode" = .num n → n ≠ .nan →
       errHttpStatus (.obj fs) = n) ∧
    ((∀ n : JSNum, getField (.obj fs) "httpCode" = .num n → n = .nan) →
       errHttpStatus (.obj fs) = .int 500) ∧
    serviceCallback (.obj [("httpCode", .num (.int 404)), ("message", .str "nf")]) .undefined =
      some (.int 404, .obj [("err", .obj [("httpCode", .num (.int 404)),
        ("message", .str "nf"), ("code", .num .nan)])]) := by
  have hres : (if truthy data then jsonVal data else some (JSVal.obj [])) =
      some (.obj []) := by simp [hdata]
  have hjv : jsonVal (JSVal.obj fs) = some (.obj (jsonValFields fs)) := by
    simp [jsonVal]
  have htr : truthy (JSVal.obj fs) = true := rfl
  refine ⟨?_, fun n h hn => errHttpStatus_num _ n h hn, errHttpStatus_500 _, rfl⟩
  have hmsgcode : getField (.obj (setFieldList (jsonValFields fs) "message"
      (getField (.obj fs) "message"))) "code" =
      getField (.obj (jsonValFields fs)) "code" :=
    getField_set_ne _ _ _ _ (by decide)
  cases hm : isNullish (getField (JSVal.obj (jsonValFields fs)) "message") with
  | false =>
    cases hc : isNullish (getField (JSVal.obj (jsonValFields fs)) "code") with
    | false =>
      refine ⟨.obj (jsonValFields fs), ?_, fun _ => rfl, ?_, fun _ => rfl, ?_⟩
      · simp [serviceCallback, hres, hjv, htr, hdata, hm, hc, setField, setFieldList]
      · exact fun h => absurd h (by decide)
      · exact fun h => absurd h (by decide)
    | true =>
      refine ⟨.obj (setFieldList (jsonValFields fs) "code"
          (.num (jsParseIntNum (getField (.obj fs) "code")))), ?_, ?_, ?_, ?_, ?_⟩
      · simp [serviceCallback, hres, hjv, htr, hdata, hm, hc, setField, setFieldList]
      · intro _; exact getField_set_ne _ _ _ _ (by decide)
      · exact fun h => absurd h (by decide)
      · exact fun h => absurd h (by decide)
      · intro _; exact getField_set_self _ _ _
  | true =>
    cases hc : isNullish (getField (JSVal.obj (jsonValFields fs)) "code") with
    | false =>
      refine ⟨.obj (setFieldList (jsonValFields fs) "message"
          (getField (.obj fs) "message")), ?_, ?_, ?_, ?_, ?_⟩
      · simp [serviceCallback, hres, hjv, htr, hdata, hm, hmsgcode, hc, setField, setFieldList]
      · exact fun h => absurd h (by decide)
      · intro _; exact getField_set_self _ _ _
      · intro _; exact hmsgcode
      · exact fun h => absurd h (by decide)
    | true =>
      refine ⟨.obj (setFieldList (setFieldList (jsonValFields fs) "message"
          (getField (.obj fs) "message")) "code"
          (.num (jsParseIntNum (getField (.obj fs) "code")))), ?_, ?_, ?_, ?_, ?_⟩
      · simp [serviceCallback, hres, hjv, htr, hdata, hm, hmsgcode, hc, setField, setFieldList]
      · exact fun h => absurd h (by decide)
      · intro _
        rw [getField_set_ne _ _ _ _ (by decide)]
        exact getField_set_self _ _ _
      · exact fun h => absurd h (by decide)
      · intro _; exact getField_set_self _ _ _

end UtilsNode
namespace UtilsNode

theorem createServiceCallback_error_spec_witness :
    truthy JSVal.undefined = false ∧
    ((∃ errObj : JSVal,
      serviceCallback (.obj [("httpCode", .num (.int 404)), ("message", .str "nf")]) .undefined =
        some (errHttpStatus (.obj [("httpCode", .num (.int 404)), ("message", .str "nf")]),
          .obj [("err", errObj)]) ∧
      (isNullish (getField (.obj (jsonValFields
          [("httpCode", .num (.int 404)), ("message", .str "nf")])) "message") = false →
         getField errObj "message" = getField (.obj (jsonValFields
           [("httpCode", .num (.int 404)), ("message", .str "nf")])) "message") ∧
      (isNullish (getField (.obj (jsonValFields
          [("httpCode", .num (.int 404)), ("message", .str "nf")])) "message") = true →
         getField errObj "message" =
           getField (.obj [("httpCode", .num (.int 404)), ("message", .str "nf")]) "message") ∧
      (isNullish (getField (.obj (jsonValFields
          [("httpCode", .num (.int 404)), ("message", .str "nf")])) "code") = false →
         getField errObj "code" = getField (.obj (jsonValFields
           [("httpCode", .num (.int 404)), ("message", .str "nf")])) "code") ∧
      (isNullish (getField (.obj (jsonValFields
          [("httpCode", .num (.int 404)), ("message", .str "nf")])) "code") = true →
         getField errObj "code" = .num (jsParseIntNum
           (getField (.obj [("httpCode", .num (.int 404)), ("message", .str "nf")]) "code")))) ∧
    (∀ n : JSNum, getField (.obj [("httpCode", .num (.int 404)), ("message", .str "nf")])
        "httpCode" = .num n → n ≠ .nan →
       errHttpStatus (.obj [("httpCode", .num (.int 404)), ("message", .str "nf")]) = n) ∧
    ((∀ n : JSNum, getField (.obj [("httpCode", .num (.int 404)), ("message", .str "nf")])
        "httpCode" = .num n → n = .nan) →
       errHttpStatus (.obj [("httpCode", .num (.int 404)), ("message", .str "nf")]) = .int 500) ∧
    serviceCallback (.obj [("httpCode", .num (.int 404)), ("message", .str "nf")]) .undefined =
      some (.int 404, .obj [("err", .obj [("httpCode", .num (.int 404)),
        ("message", .str "nf"), ("code", .num .nan)])])) :=
  ⟨rfl, createServiceCallback_error_spec
    [("httpCode", .num (.int 404)), ("message", .str "nf")] .undefined rfl⟩

end UtilsNode
